import Mathlib

/-!
Verification of the audit orchestration engine of `python_audits.py`
(Dutch Recruitment Intelligence audit suite).

The Python source is shallowly embedded: each check runner becomes a Lean
function over an explicit state describing what the runner reads from the
outside world (filesystem contents, HTTP probe outcomes, regex-engine
results).  Python exceptions that can escape a function are modelled with
`Except PyError`; runners whose source cannot raise are total functions.
JSON values are modelled by the inductive `JValue`; `json.load` outcomes are
modelled by `FileJson` (missing file / parse error / parsed value).
-/

namespace Audits

/-- Python string-containment helper: `needle` occurs at the head of `hay`. -/
def leadsWith : List Char → List Char → Bool
  | [], _ => true
  | _ :: _, [] => false
  | a :: as, b :: bs => a = b && leadsWith as bs

/-- `needle` occurs somewhere inside `hay` (Python `needle in hay`). -/
def hasSub (needle : List Char) : List Char → Bool
  | [] => leadsWith needle []
  | c :: rest => leadsWith needle (c :: rest) || hasSub needle rest

/-- Python `needle in hay` on strings. -/
def strHasSub (hay needle : String) : Bool :=
  hasSub needle.data hay.data

/-- Python `str.lower()` (ASCII, which covers every string the tool compares). -/
def pyLower (s : String) : String :=
  String.mk (s.data.map Char.toLower)

/-- Whitespace in the sense of Python `str.split()` (ASCII whitespace). -/
def pyIsSpace (c : Char) : Bool :=
  c = ' ' || c = '\t' || c = '\n' || c = '\r' || c = '\x0b' || c = '\x0c'

/-- Word counter: `inWord` records whether the previous character belonged to
a word; a word starts at each non-space character after a space/start. -/
def wordCountAux (inWord : Bool) : List Char → Nat
  | [] => 0
  | c :: cs =>
    if pyIsSpace c then wordCountAux false cs
    else (if inWord then 0 else 1) + wordCountAux true cs

/-- Python `len(s.split())`: number of maximal non-whitespace runs. -/
def pyWordCount (s : String) : Nat :=
  wordCountAux false s.data

/-- Python `c in s` for a single character. -/
def strHasChar (s : String) (c : Char) : Bool :=
  s.data.any (fun x => x = c)

/-- `s` ends with `tail` (the `*-<type>.md` glob test). -/
def strEndsWith (s tail : String) : Bool :=
  leadsWith tail.data.reverse s.data.reverse

/-- Python `str(bool)`. -/
def pyBool (b : Bool) : String :=
  if b then "True" else "False"

/-- JSON values as produced by `json.load` (numbers restricted to integers,
which is all the audited artifacts ever hold). -/
inductive JValue where
  | null : JValue
  | bool (b : Bool) : JValue
  | num (n : Int) : JValue
  | str (s : String) : JValue
  | arr (xs : List JValue) : JValue
  | obj (kvs : List (String × JValue)) : JValue

/-- Python `dict` lookup on a parsed JSON object (last occurrence wins, as in
`json.loads`). Returns `none` when the key is absent. -/
def dGet (kvs : List (String × JValue)) (k : String) : Option JValue :=
  kvs.foldl (fun acc kv => if kv.1 = k then some kv.2 else acc) none

/-- Python `dict.get(k, default)`. -/
def dGetD (kvs : List (String × JValue)) (k : String) (dflt : JValue) : JValue :=
  (dGet kvs k).getD dflt

/-- Python exceptions that can escape the embedded functions. -/
inductive PyError where
  | attributeError (msg : String) : PyError
  | typeError (msg : String) : PyError

/-- Python attribute access `v.get(k, dflt)`: only `dict` has `.get`. -/
def pyGet (v : JValue) (k : String) (dflt : JValue) : Except PyError JValue :=
  match v with
  | .obj kvs => .ok (dGetD kvs k dflt)
  | _ => .error (.attributeError "object has no attribute get")

/-- Python `len` on a JSON value: sized values only, else `TypeError`. -/
def pyLen (v : JValue) : Except PyError Nat :=
  match v with
  | .arr xs => .ok xs.length
  | .str s => .ok s.length
  | .obj kvs => .ok kvs.length
  | _ => .error (.typeError "object has no len")

mutual

/-- Python `repr` of a parsed JSON value (as used by `str` on containers). -/
def pyRepr : JValue → String
  | .null => "None"
  | .bool b => pyBool b
  | .num n => toString n
  | .str s => "\x27" ++ s ++ "\x27"
  | .arr xs => "[" ++ pyReprList xs ++ "]"
  | .obj kvs => "\x7b" ++ pyReprObj kvs ++ "\x7d"

def pyReprList : List JValue → String
  | [] => ""
  | [x] => pyRepr x
  | x :: y :: xs => pyRepr x ++ ", " ++ pyReprList (y :: xs)

def pyReprObj : List (String × JValue) → String
  | [] => ""
  | [kv] => "\x27" ++ kv.1 ++ "\x27: " ++ pyRepr kv.2
  | kv :: kv2 :: kvs => "\x27" ++ kv.1 ++ "\x27: " ++ pyRepr kv.2 ++ ", " ++ pyReprObj (kv2 :: kvs)

end

/-- Python `str` of a parsed JSON value (`str` on a `str` is the text itself). -/
def pyStr : JValue → String
  | .str s => s
  | v => pyRepr v

/-- `AuditResult` of the source: one inspection outcome.  The wall-clock
`timestamp` field is modelled as a constant (it never influences control
flow). -/
structure AuditResult where
  name : String
  status : String
  message : String
  details : Option (List (String × JValue)) := none
  timestamp : String := ""

/-- The summary dictionary built by `run_full_audit`. -/
structure Summary where
  total_checks : Nat
  passed : Nat
  warnings : Nat
  failed : Nat
  info : Nat

/-- `AuditReport` of the source. -/
structure AuditReport where
  title : String
  timestamp : String
  summary : Summary
  file_audit : List AuditResult
  endpoint_audit : List AuditResult
  data_audit : List AuditResult
  content_audit : List AuditResult
  security_audit : List AuditResult
  code_audit : List AuditResult
  recommendations : List String

/-! ### Fixed configuration tables of `LinkedInAutomationAuditor` -/

/-- `REQUIRED_FILES`. -/
def REQUIRED_FILES : List String :=
  ["zapier-webhook-server.cjs", "linkedin-content-creator.cjs",
   "dutch-recruitment-news-scraper.cjs", "google-sheets-uploader.cjs",
   "complete-automation-flow.cjs", "package.json"]

/-- `REQUIRED_DIRS`. -/
def REQUIRED_DIRS : List String := ["data", "content", "reports"]

/-- `ENDPOINTS`: path → HTTP method, in the source's insertion order. -/
def ENDPOINTS : List (String × String) :=
  [("/status", "GET"), ("/test", "GET"), ("/reports", "GET"),
   ("/daily-news-collection", "POST"), ("/upload-to-sheets", "POST"),
   ("/weekly-content-creation", "POST"), ("/get-top-articles", "GET")]

/-- `CONTENT_TYPES`. -/
def CONTENT_TYPES : List String :=
  ["weeklyRoundup", "insightPost", "trendAnalysis", "longFormArticle"]

/-- `SECURITY_PATTERNS`: regex text paired with the issue label.  The regex
engine itself (`re.findall`) is an external collaborator and is passed to
`audit_security` as a match-counting function. -/
def SECURITY_PATTERNS : List (String × String) :=
  [("(api_key|apikey)\\s*[=:]\\s*[\"\\\x27][^\"\\\x27]\x7b10,\x7d[\"\\\x27]", "Hardcoded API key"),
   ("(secret|password)\\s*[=:]\\s*[\"\\\x27][^\"\\\x27]\x7b8,\x7d[\"\\\x27]", "Hardcoded secret/password"),
   ("(token)\\s*[=:]\\s*[\"\\\x27][^\"\\\x27]\x7b20,\x7d[\"\\\x27]", "Hardcoded token"),
   ("eval\\s*\\(", "Unsafe eval() usage"),
   ("innerHTML\\s*=", "Potential XSS via innerHTML")]

/-! ### External state read by the runners -/

/-- What `audit_files` reads from the filesystem: for a file name its byte
size when it exists, for a directory name its item count when it exists and
is a directory. -/
structure FsState where
  base : String
  fileSize : String → Option Nat
  dirItems : String → Option Nat

/-- Outcome of one `urllib.request.urlopen` call: a response with a status
code, a raised `urllib.error.URLError` (with its `str`), or any other raised
exception (with its `str`). -/
inductive ProbeOutcome where
  | http (code : Nat) : ProbeOutcome
  | urlError (msg : String) : ProbeOutcome
  | otherError (msg : String) : ProbeOutcome

/-- Outcome of `path.exists()` plus `json.load(open(path))` for one JSON
artifact: the file is missing, present but `json.JSONDecodeError` (with its
`str`), or present and parsed to a value. -/
inductive FileJson where
  | missing : FileJson
  | invalid (errText : String) : FileJson
  | parsed (v : JValue) : FileJson

/-- One markdown file of the content directory as the runner sees it. -/
structure MdFile where
  name : String
  mtime : Int
  content : String

/-- What `audit_linkedin_content` reads: directory existence, the `*.md`
glob result (name, mtime, full text), and the `*-metadata.json` glob result. -/
structure ContentDirState where
  dirExists : Bool
  mdFiles : List MdFile
  metadataFiles : List String

/-- What `audit_security` reads: the `*.cjs` glob with each file's text
(`none` models a read that raised and was skipped), the optional `.env`
text, the optional `.gitignore` text, and the optional webhook-server text. -/
structure SecurityState where
  cjsFiles : List (String × Option String)
  envFile : Option String
  gitignoreFile : Option String
  serverFile : Option String

/-- What `audit_code_quality` reads. -/
structure CodeState where
  creatorFile : Option String
  serverFile : Option String
  cjsContents : List String

/-! ### Check runners -/

/-- One iteration of the required-files loop of `audit_files`. -/
def fileCheck (fs : FsState) (fn : String) : AuditResult :=
  match fs.fileSize fn with
  | some size =>
    { name := "file_" ++ fn, status := "pass"
      message := fn ++ " exists (" ++ toString size ++ " bytes)"
      details := some [("path", .str (fs.base ++ "/" ++ fn)), ("size", .num size)] }
  | none =>
    { name := "file_" ++ fn, status := "fail", message := fn ++ " is missing" }

/-- One iteration of the required-directories loop of `audit_files`. -/
def dirCheck (fs : FsState) (d : String) : AuditResult :=
  match fs.dirItems d with
  | some n =>
    { name := "dir_" ++ d, status := "pass"
      message := d ++ "/ exists (" ++ toString n ++ " items)"
      details := some [("path", .str (fs.base ++ "/" ++ d)), ("items", .num n)] }
  | none =>
    { name := "dir_" ++ d, status := "warn", message := d ++ "/ is missing" }

/-- `audit_files`. -/
def audit_files (fs : FsState) : List AuditResult :=
  REQUIRED_FILES.map (fileCheck fs) ++ REQUIRED_DIRS.map (dirCheck fs)

/-- Body of the per-endpoint loop of `audit_endpoints`: classify the probe
outcome for one `(path, method)` pair. -/
def endpointCheck (probe : String → String → ProbeOutcome) (pm : String × String) :
    AuditResult :=
  match probe pm.1 pm.2 with
  | .http code =>
    if code = 200 then
      { name := "endpoint_" ++ pm.1, status := "pass"
        message := pm.2 ++ " " ++ pm.1 ++ " - HTTP " ++ toString code
        details := some [("method", .str pm.2), ("status", .num code)] }
    else
      { name := "endpoint_" ++ pm.1, status := "warn"
        message := pm.2 ++ " " ++ pm.1 ++ " - HTTP " ++ toString code
        details := some [("method", .str pm.2), ("status", .num code)] }
  | .urlError e =>
    { name := "endpoint_" ++ pm.1, status := "fail"
      message := pm.2 ++ " " ++ pm.1 ++ " - Connection failed"
      details := some [("error", .str e)] }
  | .otherError e =>
    { name := "endpoint_" ++ pm.1, status := "fail"
      message := pm.2 ++ " " ++ pm.1 ++ " - Error: " ++ e
      details := some [("error", .str e)] }

/-- `audit_endpoints`: each configured endpoint is probed once; every
exception the probe can raise is caught inside the loop body, so the runner
always returns a full result list (it never propagates an exception). -/
def audit_endpoints (probe : String → String → ProbeOutcome) : List AuditResult :=
  ENDPOINTS.map (endpointCheck probe)

/-- The `latest-dutch-news.json` section of `audit_data` (source lines
252-287).  Only `json.JSONDecodeError` is caught there, so the attribute and
type errors raised by `data.get` / `len` on ill-shaped parsed values
propagate. -/
def newsCheck (news : FileJson) : Except PyError AuditResult :=
  match news with
  | .missing =>
    .ok { name := "data_latest_news", status := "warn"
          message := "latest-dutch-news.json not found" }
  | .invalid e =>
    .ok { name := "data_latest_news", status := "fail"
          message := "latest-dutch-news.json: Invalid JSON - " ++ e }
  | .parsed v => do
    let totalArticles ← pyGet v "totalArticles" (.num 0)
    let cats ← pyGet v "categories" (.arr [])
    let categories ← pyLen cats
    let srcs ← pyGet v "sources" (.arr [])
    let sources ← pyLen srcs
    .ok { name := "data_latest_news", status := "pass"
          message := "latest-dutch-news.json: " ++ pyStr totalArticles ++
            " articles, " ++ toString categories ++ " categories"
          details := some [("total_articles", totalArticles),
            ("categories", .num categories), ("sources", .num sources)] }

/-- The `weekly-top-articles.json` section of `audit_data` (source lines
290-319).  `len(data) if isinstance(data, list) else 0` never raises. -/
def weeklyCheck (weekly : FileJson) : AuditResult :=
  match weekly with
  | .missing =>
    { name := "data_weekly_articles", status := "warn"
      message := "weekly-top-articles.json not found - needed for LinkedIn content" }
  | .invalid _ =>
    { name := "data_weekly_articles", status := "fail"
      message := "weekly-top-articles.json: Invalid JSON" }
  | .parsed v =>
    let daysCount : Nat := match v with | .arr xs => xs.length | _ => 0
    { name := "data_weekly_articles"
      status := if daysCount ≥ 3 then "pass" else "warn"
      message := "weekly-top-articles.json: " ++ toString daysCount ++ " days of data"
      details := some [("days", .num daysCount)] }

/-- The sheets-backup section of `audit_data` (glob count). -/
def backupsCheck (backupCount : Nat) : AuditResult :=
  { name := "data_backups"
    status := if backupCount > 0 then "pass" else "info"
    message := "Sheets backups: " ++ toString backupCount ++ " files"
    details := some [("count", .num backupCount)] }

/-- `audit_data`.  The news section may raise; the raise aborts the whole
runner (nothing after it is appended). -/
def audit_data (news weekly : FileJson) (backupCount : Nat) :
    Except PyError (List AuditResult) := do
  let r1 ← newsCheck news
  .ok [r1, weeklyCheck weekly, backupsCheck backupCount]

/-- Python `max(files, key=lambda f: f.stat().st_mtime)`: first maximum of a
non-empty sequence (later elements replace only on strictly greater key). -/
def pyMaxBy (acc : MdFile) : List MdFile → MdFile
  | [] => acc
  | f :: fs => pyMaxBy (if f.mtime > acc.mtime then f else acc) fs

/-- One iteration of the per-content-type loop of `audit_linkedin_content`:
files are the `*-<type>.md` glob, i.e. the markdown files ending that way. -/
def contentTypeCheck (mdFiles : List MdFile) (t : String) : AuditResult :=
  let files := mdFiles.filter (fun f => strEndsWith f.name ("-" ++ t ++ ".md"))
  { name := "content_" ++ t
    status := if files.length > 0 then "pass" else "info"
    message := t ++ ": " ++ toString files.length ++ " files"
    details := some [("count", .num files.length),
      ("files", .arr (files.map (fun f => .str f.name)))] }

/-- The latest-file quality sub-check of `audit_linkedin_content`
(source lines 363-384), evaluated on the most recently modified file. -/
def qualityCheck (latest : MdFile) : AuditResult :=
  let wordCount := pyWordCount latest.content
  let hasHashtags := strHasChar latest.content '#'
  let hasDutch := strHasSub (pyLower latest.content) "recruitment" ||
    strHasSub (pyLower latest.content) "nederlandse" ||
    strHasSub (pyLower latest.content) "arbeidsmarkt"
  { name := "content_quality"
    status := if wordCount > 100 && hasHashtags && hasDutch then "pass" else "warn"
    message := "Latest content: " ++ latest.name ++ " (" ++ toString wordCount ++ " words)"
    details := some [("file", .str latest.name), ("word_count", .num wordCount),
      ("has_hashtags", .bool hasHashtags), ("has_dutch_keywords", .bool hasDutch)] }

/-- The metadata-files sub-check of `audit_linkedin_content`. -/
def metadataCheck (metadataFiles : List String) : AuditResult :=
  { name := "content_metadata"
    status := if metadataFiles.length > 0 then "pass" else "info"
    message := "Metadata files: " ++ toString metadataFiles.length
    details := some [("count", .num metadataFiles.length)] }

/-- `audit_linkedin_content`.  Only a missing directory short-circuits; an
existing directory runs the per-type counts and the metadata count even when
it holds no files, and the quality sub-check only when some `*.md` exists. -/
def audit_linkedin_content (cs : ContentDirState) : List AuditResult :=
  if cs.dirExists = false then
    [{ name := "content_dir", status := "warn"
       message := "Content directory does not exist" }]
  else
    CONTENT_TYPES.map (contentTypeCheck cs.mdFiles) ++
      (match cs.mdFiles with
       | [] => []
       | f :: fs => [qualityCheck (pyMaxBy f fs)]) ++
      [metadataCheck cs.metadataFiles]

/-- Issues found by the `*.cjs` pattern scan of `audit_security`: for every
readable file and every pattern with a positive `re.findall` count, one
`(file, issue, matches)` entry, in scan order.  `refind pattern text` is the
number of matches `re.findall(pattern, text, re.IGNORECASE)` returns. -/
def scanIssues (refind : String → String → Nat) (cjs : List (String × Option String)) :
    List (String × String × Nat) :=
  cjs.flatMap (fun fc =>
    match fc.2 with
    | none => []
    | some text =>
      SECURITY_PATTERNS.filterMap (fun pl =>
        let n := refind pl.1 text
        if n > 0 then some (fc.1, pl.2, n) else none))

/-- The code-scan result of `audit_security`. -/
def scanCheck (issues : List (String × String × Nat)) : AuditResult :=
  if issues.length > 0 then
    { name := "security_code_scan", status := "warn"
      message := "Found " ++ toString issues.length ++ " potential security issues"
      details := some [("issues", .arr (issues.map (fun i =>
        .obj [("file", .str i.1), ("issue", .str i.2.1), ("matches", .num i.2.2)])))] }
  else
    { name := "security_code_scan", status := "pass"
      message := "No obvious security issues in code" }

/-- `audit_security`.  The `.gitignore` sub-check runs only when the file
exists; its `fail` branch is the sole `fail` the runner can emit. -/
def audit_security (refind : String → String → Nat) (s : SecurityState) :
    List AuditResult :=
  [scanCheck (scanIssues refind s.cjsFiles)] ++
  (match s.envFile with
   | some envContent =>
     let hasWebhookSecret := strHasSub envContent "WEBHOOK_SECRET"
     [{ name := "security_env_file", status := "pass", message := ".env file exists" },
      { name := "security_webhook_secret"
        status := if hasWebhookSecret then "pass" else "warn"
        message := "WEBHOOK_SECRET: " ++
          (if hasWebhookSecret then "configured" else "not found") }]
   | none =>
     [{ name := "security_env_file", status := "warn", message := ".env file not found" }]) ++
  (match s.gitignoreFile with
   | some g =>
     let envIgnored := strHasSub g ".env"
     [{ name := "security_gitignore"
        status := if envIgnored then "pass" else "fail"
        message := ".env in .gitignore: " ++ pyBool envIgnored }]
   | none => []) ++
  (match s.serverFile with
   | some server =>
     let openCors := strHasSub server "Access-Control-Allow-Origin\x27, \x27*\x27"
     [{ name := "security_cors"
        status := if openCors then "warn" else "pass"
        message := "CORS: " ++ (if openCors then "Open (*)" else "Restricted") }]
   | none => [])

/-- Required method names of the content-creator source (`audit_code_quality`). -/
def requiredMethods : List String :=
  ["runWeeklyContentCreation", "generateWeeklyRoundupPost", "generateInsightPost",
   "generateTrendAnalysisPost", "generateLongFormArticle", "analyzeWeeklyTrends"]

/-- Content-template identifiers looked for in the creator source. -/
def templateNames : List String :=
  ["weeklyRoundup", "insightPost", "trendAnalysis", "article"]

/-- Endpoint path literals looked for in the server source. -/
def endpointsInCode : List String :=
  ["/daily-news-collection", "/upload-to-sheets", "/weekly-content-creation",
   "/get-top-articles", "/status", "/test", "/reports"]

/-- `audit_code_quality`. -/
def audit_code_quality (cs : CodeState) : List AuditResult :=
  (match cs.creatorFile with
   | some content =>
     let found := requiredMethods.filter (fun m => strHasSub content m)
     let missing := requiredMethods.filter (fun m => ¬ strHasSub content m)
     let foundTemplates := templateNames.filter (fun t => strHasSub content t)
     [{ name := "code_linkedin_methods"
        status := if missing.isEmpty then "pass" else "warn"
        message := "LinkedIn Creator: " ++ toString found.length ++ "/" ++
          toString requiredMethods.length ++ " methods found"
        details := some [("found", .arr (found.map .str)),
          ("missing", .arr (missing.map .str))] },
      { name := "code_templates"
        status := if foundTemplates.length = templateNames.length then "pass" else "warn"
        message := "Content templates: " ++ toString foundTemplates.length ++ "/" ++
          toString templateNames.length ++ " configured"
        details := some [("templates", .arr (foundTemplates.map .str))] }]
   | none => []) ++
  (match cs.serverFile with
   | some content =>
     let foundEndpoints := endpointsInCode.filter (fun e => strHasSub content e)
     [{ name := "code_endpoints"
        status := if foundEndpoints.length = endpointsInCode.length then "pass" else "warn"
        message := "Webhook endpoints: " ++ toString foundEndpoints.length ++ "/" ++
          toString endpointsInCode.length ++ " implemented"
        details := some [("endpoints", .arr (foundEndpoints.map .str))] }]
   | none => []) ++
  (let withTryCatch := (cs.cjsContents.filter (fun c => strHasSub c "try \x7b")).length
   [{ name := "code_error_handling"
      status := if withTryCatch > 3 then "pass" else "warn"
      message := "Error handling: " ++ toString withTryCatch ++ "/" ++
        toString cs.cjsContents.length ++ " files use try-catch"
      details := some [("files_with_handling", .num withTryCatch),
        ("total_files", .num cs.cjsContents.length)] }])

/-- The four unconditional best-practice recommendations appended at the end
of `generate_recommendations`. -/
def defaultRecommendations : List String :=
  ["Review generated LinkedIn content before manual posting",
   "Monitor endpoint response times in production",
   "Keep dependencies updated: npm update",
   "Test automation flow weekly to ensure reliability"]

/-- `generate_recommendations`: six independent predicate→advice rules over
the aggregated results, then the fixed tail. -/
def generate_recommendations (allResults : List AuditResult) : List String :=
  let fails := allResults.filter (fun r => r.status = "fail")
  let warns := allResults.filter (fun r => r.status = "warn")
  ((if warns.any (fun r => strHasSub (pyLower r.name) "cors") then
      ["Consider restricting CORS to specific domains in production"] else []) ++
   (if (warns ++ fails).any (fun r => strHasSub (pyLower r.name) "env") then
      ["Ensure .env file is properly configured with all required secrets"] else []) ++
   (if allResults.any (fun r => strHasSub (pyLower r.name) "weekly" && r.status ≠ "pass") then
      ["Run daily uploads for at least 3 days before generating weekly LinkedIn content"] else []) ++
   (if allResults.any (fun r => strHasSub (pyLower r.name) "content" && strHasSub r.message "0 files") then
      ["Generate LinkedIn content using: node linkedin-content-creator.cjs create"] else []) ++
   (if allResults.any (fun r => strHasSub (pyLower r.name) "backup") then
      ["Set up automated backups of the data directory"] else []) ++
   (if allResults.any (fun r => strHasSub (pyLower r.name) "endpoint" && r.status = "fail") then
      ["Ensure the webhook server is running: npm start"] else [])) ++
  defaultRecommendations

/-- Everything `run_full_audit` reads from the outside world. -/
structure AuditEnv where
  fs : FsState
  probe : String → String → ProbeOutcome
  news : FileJson
  weekly : FileJson
  backupCount : Nat
  content : ContentDirState
  refind : String → String → Nat
  sec : SecurityState
  code : CodeState

/-- The summary dictionary computed by `run_full_audit`. -/
def mkSummary (allResults : List AuditResult) : Summary :=
  { total_checks := allResults.length
    passed := (allResults.filter (fun r => r.status = "pass")).length
    warnings := (allResults.filter (fun r => r.status = "warn")).length
    failed := (allResults.filter (fun r => r.status = "fail")).length
    info := (allResults.filter (fun r => r.status = "info")).length }

/-- `run_full_audit`: run the six runners in order, concatenate, summarise,
recommend, and build the report.  The exception `audit_data` can raise
propagates out (nothing in the source catches it). -/
def run_full_audit (env : AuditEnv) : Except PyError AuditReport := do
  let fileResults := audit_files env.fs
  let endpointResults := audit_endpoints env.probe
  let dataResults ← audit_data env.news env.weekly env.backupCount
  let contentResults := audit_linkedin_content env.content
  let securityResults := audit_security env.refind env.sec
  let codeResults := audit_code_quality env.code
  let allResults := fileResults ++ endpointResults ++ dataResults ++
    contentResults ++ securityResults ++ codeResults
  .ok { title := "Dutch Recruitment Intelligence - Audit Report"
        timestamp := ""
        summary := mkSummary allResults
        file_audit := fileResults
        endpoint_audit := endpointResults
        data_audit := dataResults
        content_audit := contentResults
        security_audit := securityResults
        code_audit := codeResults
        recommendations := generate_recommendations allResults }

/-! ### Serialization (`AuditReport.to_dict`, written by `save_report`) -/

/-- `dataclasses.asdict` on an `AuditResult`. -/
def resultToDict (r : AuditResult) : JValue :=
  .obj [("name", .str r.name), ("status", .str r.status),
        ("message", .str r.message),
        ("details", match r.details with | none => .null | some kvs => .obj kvs),
        ("timestamp", .str r.timestamp)]

/-- The summary dictionary as a JSON value. -/
def summaryToDict (s : Summary) : JValue :=
  .obj [("total_checks", .num s.total_checks), ("passed", .num s.passed),
        ("warnings", .num s.warnings), ("failed", .num s.failed),
        ("info", .num s.info)]

/-- `AuditReport.to_dict`: the structured form `save_report` serializes. -/
def reportToDict (r : AuditReport) : JValue :=
  .obj [("title", .str r.title), ("timestamp", .str r.timestamp),
        ("summary", summaryToDict r.summary),
        ("file_audit", .arr (r.file_audit.map resultToDict)),
        ("endpoint_audit", .arr (r.endpoint_audit.map resultToDict)),
        ("data_audit", .arr (r.data_audit.map resultToDict)),
        ("content_audit", .arr (r.content_audit.map resultToDict)),
        ("security_audit", .arr (r.security_audit.map resultToDict)),
        ("code_audit", .arr (r.code_audit.map resultToDict)),
        ("recommendations", .arr (r.recommendations.map .str))]

/-! ### Spec-side definitions (stated from the specification's words, to be
compared with the code-derived definitions above) -/

/-- Spec §4.2: HTTP 200 → pass; any other status code → warn; network-level
failure → fail; any other exception → fail. -/
def specProbeStatus : ProbeOutcome → String
  | .http code => if code = 200 then "pass" else "warn"
  | .urlError _ => "fail"
  | .otherError _ => "fail"

/-- Spec §4.3: weekly artifact status — missing → warn; invalid JSON → fail;
parsed → pass when the day-count (list length, else 0) is at least 3, else
warn. -/
def specWeeklyStatus : FileJson → String
  | .missing => "warn"
  | .invalid _ => "fail"
  | .parsed v => if (match v with | .arr xs => xs.length | _ => 0) ≥ 3 then "pass" else "warn"

/-- The status enum of the spec's data model: every result's status is one of
pass/warn/fail/info. -/
def statusLegal (r : AuditResult) : Prop :=
  r.status = "pass" ∨ r.status = "warn" ∨ r.status = "fail" ∨ r.status = "info"

/-- The summary invariant of the spec (§3): `total_checks` equals the sum of
the four status counts and equals the total length of the six category
lists. -/
def reportInvariant (r : AuditReport) : Prop :=
  r.summary.total_checks =
      r.summary.passed + r.summary.warnings + r.summary.failed + r.summary.info ∧
  r.summary.total_checks =
      r.file_audit.length + r.endpoint_audit.length + r.data_audit.length +
        r.content_audit.length + r.security_audit.length + r.code_audit.length

/-- The summary invariant, lifted to a possibly-raising run. -/
def reportInvariantE : Except PyError AuditReport → Prop
  | .ok r => reportInvariant r
  | .error _ => True

/-- First result of a possibly-raising runner output. -/
def firstResult (e : Except PyError (List AuditResult)) : Option AuditResult :=
  match e with
  | .ok l => l.head?
  | .error _ => none

/-- Result at position `i` of a possibly-raising runner output. -/
def nthResult (e : Except PyError (List AuditResult)) (i : Nat) : Option AuditResult :=
  match e with
  | .ok l => l.get? i
  | .error _ => none

/-- Key lookup in a serialized JSON object. -/
def jGet : JValue → String → Option JValue
  | .obj kvs, k => dGet kvs k
  | _, _ => none

/-- Read back a non-negative count from a serialized JSON number. -/
def jNat : JValue → Option Nat
  | .num (.ofNat m) => some m
  | _ => none

/-- Read back the length of a serialized JSON array. -/
def jArrLen : JValue → Option Nat
  | .arr xs => some xs.length
  | _ => none

/-- Parse the summary counts back out of a serialized report. -/
def parseSummary (j : JValue) : Option Summary := do
  let s ← jGet j "summary"
  let tc ← (jGet s "total_checks").bind jNat
  let p ← (jGet s "passed").bind jNat
  let w ← (jGet s "warnings").bind jNat
  let f ← (jGet s "failed").bind jNat
  let i ← (jGet s "info").bind jNat
  pure { total_checks := tc, passed := p, warnings := w, failed := f, info := i }

/-- Parse the six category lengths back out of a serialized report. -/
def parseCategoryLens (j : JValue) : Option (List Nat) := do
  let a ← (jGet j "file_audit").bind jArrLen
  let b ← (jGet j "endpoint_audit").bind jArrLen
  let c ← (jGet j "data_audit").bind jArrLen
  let d ← (jGet j "content_audit").bind jArrLen
  let e ← (jGet j "security_audit").bind jArrLen
  let f ← (jGet j "code_audit").bind jArrLen
  pure [a, b, c, d, e, f]

/-! ### Concrete sample states used by witnesses -/

/-- A complete environment in which nothing exists and no endpoint answers. -/
def sampleEnv : AuditEnv where
  fs := { base := "", fileSize := fun _ => none, dirItems := fun _ => none }
  probe := fun _ _ => .urlError "urlopen error Connection refused"
  news := .missing
  weekly := .missing
  backupCount := 0
  content := { dirExists := false, mdFiles := [], metadataFiles := [] }
  refind := fun _ _ => 0
  sec := { cjsFiles := [], envFile := none, gitignoreFile := none, serverFile := none }
  code := { creatorFile := none, serverFile := none, cjsContents := [] }

/-- Security state with nothing on disk. -/
def secAllNone : SecurityState :=
  { cjsFiles := [], envFile := none, gitignoreFile := none, serverFile := none }

/-- Security state with every audited file present (`.gitignore` lacking the
`.env` entry). -/
def secAllSome : SecurityState :=
  { cjsFiles := [], envFile := some "WEBHOOK_SECRET=x"
    gitignoreFile := some "node_modules", serverFile := some "res.end()" }

/-! ### Supporting lemmas -/

theorem length_eq_status_counts (l : List AuditResult) (h : ∀ r ∈ l, statusLegal r) :
    l.length =
      (l.filter (fun r => r.status = "pass")).length +
      (l.filter (fun r => r.status = "warn")).length +
      (l.filter (fun r => r.status = "fail")).length +
      (l.filter (fun r => r.status = "info")).length := by
  induction l with
  | nil => simp
  | cons a t ih =>
    have ha := h a (List.mem_cons_self a t)
    have iht := ih (fun r hr => h r (List.mem_cons_of_mem a hr))
    rcases ha with h1 | h1 | h1 | h1 <;>
      simp [List.filter_cons, h1, iht] <;> omega

theorem audit_files_statusLegal (fs : FsState) : ∀ r ∈ audit_files fs, statusLegal r := by
  intro r hr
  rcases List.mem_append.mp hr with hm | hm
  · rcases List.mem_map.mp hm with ⟨fn, _, rfl⟩
    unfold fileCheck
    cases fs.fileSize fn <;> simp [statusLegal]
  · rcases List.mem_map.mp hm with ⟨d, _, rfl⟩
    unfold dirCheck
    cases fs.dirItems d <;> simp [statusLegal]

theorem audit_endpoints_statusLegal (probe : String → String → ProbeOutcome) :
    ∀ r ∈ audit_endpoints probe, statusLegal r := by
  intro r hr
  rcases List.mem_map.mp hr with ⟨pm, _, rfl⟩
  cases hp : probe pm.1 pm.2 with
  | http code =>
    simp only [endpointCheck, hp, statusLegal]
    split <;> simp
  | urlError e => simp [endpointCheck, hp, statusLegal]
  | otherError e => simp [endpointCheck, hp, statusLegal]

theorem newsCheck_ok_legal {news : FileJson} {r : AuditResult}
    (h : newsCheck news = .ok r) : statusLegal r := by
  cases news with
  | missing =>
    simp [newsCheck] at h
    simp [← h, statusLegal]
  | invalid e =>
    simp [newsCheck] at h
    simp [← h, statusLegal]
  | parsed v =>
    cases h1 : pyGet v "totalArticles" (.num 0) with
    | error e => simp [newsCheck, h1, Bind.bind, Except.bind] at h
    | ok ta =>
      cases h2 : pyGet v "categories" (.arr []) with
      | error e => simp [newsCheck, h1, h2, Bind.bind, Except.bind] at h
      | ok cats =>
        cases h3 : pyLen cats with
        | error e => simp [newsCheck, h1, h2, h3, Bind.bind, Except.bind] at h
        | ok nc =>
          cases h4 : pyGet v "sources" (.arr []) with
          | error e => simp [newsCheck, h1, h2, h3, h4, Bind.bind, Except.bind] at h
          | ok srcs =>
            cases h5 : pyLen srcs with
            | error e => simp [newsCheck, h1, h2, h3, h4, h5, Bind.bind, Except.bind] at h
            | ok ns =>
              simp [newsCheck, h1, h2, h3, h4, h5, Bind.bind, Except.bind] at h
              simp [← h, statusLegal]

theorem weeklyCheck_legal (w : FileJson) : statusLegal (weeklyCheck w) := by
  cases w with
  | missing => simp [weeklyCheck, statusLegal]
  | invalid e => simp [weeklyCheck, statusLegal]
  | parsed v =>
    simp only [weeklyCheck, statusLegal]
    split <;> simp

theorem backupsCheck_legal (bc : Nat) : statusLegal (backupsCheck bc) := by
  simp only [backupsCheck, statusLegal]
  split <;> simp

theorem audit_data_statusLegal {news weekly : FileJson} {bc : Nat} {l : List AuditResult}
    (h : audit_data news weekly bc = .ok l) : ∀ r ∈ l, statusLegal r := by
  intro r hr
  cases hn : newsCheck news with
  | error e => simp [audit_data, hn, Bind.bind, Except.bind] at h
  | ok r1 =>
    have hl : l = [r1, weeklyCheck weekly, backupsCheck bc] := by
      simp [audit_data, hn, Bind.bind, Except.bind] at h
      exact h.symm
    subst hl
    simp only [List.mem_cons, List.not_mem_nil, or_false] at hr
    rcases hr with rfl | rfl | rfl
    · exact newsCheck_ok_legal hn
    · exact weeklyCheck_legal weekly
    · exact backupsCheck_legal bc

theorem contentTypeCheck_legal (mdFiles : List MdFile) (t : String) :
    statusLegal (contentTypeCheck mdFiles t) := by
  simp only [contentTypeCheck, statusLegal]
  split <;> simp

theorem qualityCheck_legal (f : MdFile) : statusLegal (qualityCheck f) := by
  simp only [qualityCheck, statusLegal]
  split <;> simp

theorem metadataCheck_legal (m : List String) : statusLegal (metadataCheck m) := by
  simp only [metadataCheck, statusLegal]
  split <;> simp

theorem audit_content_statusLegal (cs : ContentDirState) :
    ∀ r ∈ audit_linkedin_content cs, statusLegal r := by
  intro r hr
  unfold audit_linkedin_content at hr
  by_cases hd : cs.dirExists = false
  · simp [hd] at hr
    simp [hr, statusLegal]
  · simp [hd] at hr
    rcases hr with ⟨t, _, rfl⟩ | hm | rfl
    · exact contentTypeCheck_legal _ t
    · cases hf : cs.mdFiles with
      | nil => simp [hf] at hm
      | cons f ft =>
        simp [hf] at hm
        rw [hm]
        exact qualityCheck_legal _
    · exact metadataCheck_legal _

theorem scanCheck_legal (issues : List (String × String × Nat)) :
    statusLegal (scanCheck issues) := by
  simp only [scanCheck, statusLegal]
  split <;> simp

theorem audit_security_statusLegal (refind : String → String → Nat) (s : SecurityState) :
    ∀ r ∈ audit_security refind s, statusLegal r := by
  intro r hr
  unfold audit_security at hr
  rcases List.mem_append.mp hr with h3 | hC
  · rcases List.mem_append.mp h3 with h2 | hG
    · rcases List.mem_append.mp h2 with hA | hE
      · simp at hA
        rw [hA]
        exact scanCheck_legal _
      · cases henv : s.envFile with
        | none =>
          simp [henv] at hE
          simp [hE, statusLegal]
        | some envContent =>
          simp [henv] at hE
          rcases hE with rfl | rfl
          · simp [statusLegal]
          · simp only [statusLegal]
            split <;> simp
    · cases hgit : s.gitignoreFile with
      | none => simp [hgit] at hG
      | some g =>
        simp [hgit] at hG
        rw [hG]
        simp only [statusLegal]
        split <;> simp
  · cases hserv : s.serverFile with
    | none => simp [hserv] at hC
    | some server =>
      simp [hserv] at hC
      rw [hC]
      simp only [statusLegal]
      split <;> simp

theorem audit_code_statusLegal (cs : CodeState) :
    ∀ r ∈ audit_code_quality cs, statusLegal r := by
  intro r hr
  unfold audit_code_quality at hr
  rcases List.mem_append.mp hr with h2 | hT
  · rcases List.mem_append.mp h2 with hA | hB
    · cases hcr : cs.creatorFile with
      | none => simp [hcr] at hA
      | some content =>
        simp [hcr] at hA
        rcases hA with rfl | rfl
        · simp only [statusLegal]
          split <;> simp
        · simp only [statusLegal]
          split <;> simp
    · cases hsv : cs.serverFile with
      | none => simp [hsv] at hB
      | some content =>
        simp [hsv] at hB
        rw [hB]
        simp only [statusLegal]
        split <;> simp
  · simp at hT
    rw [hT]
    simp only [statusLegal]
    split <;> simp

theorem pyMaxBy_mem (f : MdFile) (l : List MdFile) : pyMaxBy f l = f ∨ pyMaxBy f l ∈ l := by
  induction l generalizing f with
  | nil => left; rfl
  | cons g t ih =>
    simp only [pyMaxBy]
    rcases ih (if g.mtime > f.mtime then g else f) with h | h
    · rw [h]
      split
      · right; exact List.mem_cons_self g t
      · left; rfl
    · right
      exact List.mem_cons_of_mem g h

theorem pyMaxBy_ge (f : MdFile) (l : List MdFile) :
    f.mtime ≤ (pyMaxBy f l).mtime ∧ ∀ g ∈ l, g.mtime ≤ (pyMaxBy f l).mtime := by
  induction l generalizing f with
  | nil => exact ⟨le_refl _, by simp⟩
  | cons g t ih =>
    have h := ih (if g.mtime > f.mtime then g else f)
    have hstep : f.mtime ≤ (if g.mtime > f.mtime then g else f).mtime ∧
        g.mtime ≤ (if g.mtime > f.mtime then g else f).mtime := by
      split <;> constructor <;> omega
    refine ⟨le_trans hstep.1 h.1, ?_⟩
    intro x hx
    rcases List.mem_cons.mp hx with rfl | hx
    · exact le_trans hstep.2 h.1
    · exact h.2 x hx

/-- Full case analysis of one security result: either it is one of the
pass/warn-only sub-checks (and is not named after the `.gitignore` check), or
it is the `.gitignore` check, whose status is decided by the `.env`
containment test. -/
theorem audit_security_mem_cases (refind : String → String → Nat) (s : SecurityState)
    (r : AuditResult) (hr : r ∈ audit_security refind s) :
    ((r.status = "pass" ∨ r.status = "warn") ∧ r.name ≠ "security_gitignore") ∨
    (r.name = "security_gitignore" ∧ ∃ g, s.gitignoreFile = some g ∧
      r.status = if strHasSub g ".env" then "pass" else "fail") := by
  unfold audit_security at hr
  rcases List.mem_append.mp hr with h3 | hC
  · rcases List.mem_append.mp h3 with h2 | hG
    · rcases List.mem_append.mp h2 with hA | hE
      · simp at hA
        rw [hA]
        left
        constructor
        · simp only [scanCheck]
          split <;> simp
        · simp only [scanCheck]
          split <;> simp
      · cases henv : s.envFile with
        | none =>
          simp [henv] at hE
          rw [hE]
          left
          exact ⟨by simp, by simp⟩
        | some envContent =>
          simp [henv] at hE
          rcases hE with rfl | rfl
          · left
            exact ⟨by simp, by simp⟩
          · left
            constructor
            · simp only
              split <;> simp
            · simp
    · cases hgit : s.gitignoreFile with
      | none => simp [hgit] at hG
      | some g =>
        simp [hgit] at hG
        rw [hG]
        right
        exact ⟨rfl, g, rfl, rfl⟩
  · cases hserv : s.serverFile with
    | none => simp [hserv] at hC
    | some server =>
      simp [hserv] at hC
      rw [hC]
      left
      constructor
      · simp only
        split <;> simp
      · simp

/-! ### Claim theorems -/

/-- C1: for every full audit run that produces a report, the report's summary
satisfies `total_checks = passed + warnings + failed + info` and equals the
total number of results across the six category lists, whatever the runners
read from the outside world; every status any runner constructs is one of
pass/warn/fail/info (established by the per-runner legality lemmas this
proof uses).  The second conjunct shows a concrete full run that does
produce a report. -/
theorem c1_summary_invariant :
    (∀ env : AuditEnv, reportInvariantE (run_full_audit env)) ∧
    (run_full_audit sampleEnv).toOption.isSome = true := by
  refine ⟨?_, rfl⟩
  intro env
  cases hd : audit_data env.news env.weekly env.backupCount with
  | error e => simp [run_full_audit, hd, reportInvariantE, Bind.bind, Except.bind]
  | ok ld =>
    have hleg : ∀ r ∈ audit_files env.fs ++ audit_endpoints env.probe ++ ld ++
        audit_linkedin_content env.content ++ audit_security env.refind env.sec ++
        audit_code_quality env.code, statusLegal r := by
      intro r hr
      rcases List.mem_append.mp hr with h5 | h
      · rcases List.mem_append.mp h5 with h4 | h
        · rcases List.mem_append.mp h4 with h3 | h
          · rcases List.mem_append.mp h3 with h2 | h
            · rcases List.mem_append.mp h2 with h1 | h
              · exact audit_files_statusLegal env.fs r h1
              · exact audit_endpoints_statusLegal env.probe r h
            · exact audit_data_statusLegal hd r h
          · exact audit_content_statusLegal env.content r h
        · exact audit_security_statusLegal env.refind env.sec r h
      · exact audit_code_statusLegal env.code r h
    simp only [run_full_audit, hd, Bind.bind, Except.bind, reportInvariantE,
      reportInvariant, mkSummary]
    constructor
    · exact length_eq_status_counts _ hleg
    · simp only [List.length_append]

/-- C2: the endpoint runner emits exactly one result per configured endpoint
(the map equation and the length), never propagates an exception (it is a
total function of the probe), and classifies each probe outcome exactly as
the spec's table `specProbeStatus` does: HTTP 200 → pass, any other code →
warn with the status code attached (in the details and in the message),
URLError → fail with the error text in details, any other exception → fail
with the error text in details. -/
theorem c2_endpoint_runner (probe : String → String → ProbeOutcome) (pm : String × String) :
    audit_endpoints probe = ENDPOINTS.map (endpointCheck probe) ∧
    (audit_endpoints probe).length = 7 ∧
    (endpointCheck probe pm).name = "endpoint_" ++ pm.1 ∧
    (endpointCheck probe pm).status = specProbeStatus (probe pm.1 pm.2) ∧
    (match probe pm.1 pm.2 with
     | .urlError e => (endpointCheck probe pm).details = some [("error", JValue.str e)]
     | .otherError e => (endpointCheck probe pm).details = some [("error", JValue.str e)]
     | .http code =>
       (endpointCheck probe pm).details =
         some [("method", JValue.str pm.2), ("status", JValue.num code)] ∧
       (endpointCheck probe pm).message =
         pm.2 ++ " " ++ pm.1 ++ " - HTTP " ++ toString code) := by
  refine ⟨rfl, rfl, ?_, ?_, ?_⟩
  · cases hp : probe pm.1 pm.2 with
    | http code =>
      simp only [endpointCheck, hp]
      split <;> rfl
    | urlError e => simp [endpointCheck, hp]
    | otherError e => simp [endpointCheck, hp]
  · cases hp : probe pm.1 pm.2 with
    | http code =>
      simp only [endpointCheck, specProbeStatus, hp]
      split <;> simp_all
    | urlError e => simp [endpointCheck, specProbeStatus, hp]
    | otherError e => simp [endpointCheck, specProbeStatus, hp]
  · cases hp : probe pm.1 pm.2 with
    | http code =>
      simp only [endpointCheck, hp]
      split <;> exact ⟨rfl, rfl⟩
    | urlError e => simp [endpointCheck, hp]
    | otherError e => simp [endpointCheck, hp]

/-- C3 counterexample: a "latest news" file holding valid JSON whose top
level is a list (not an object) makes the data runner raise
`AttributeError` (`data.get` on a list), so "any successfully parsed JSON
value, whatever its top-level shape, yields a result rather than a
propagated exception" is false. -/
theorem c3_counterexample :
    audit_data (.parsed (.arr [.num 1, .num 2, .num 3])) .missing 0 =
      .error (.attributeError "object has no attribute get") := rfl

/-- C3 (amended): the latest-news check never raises when the artifact is
missing (→ warn), unparsable (→ fail carrying the parse error text), or
parses to a JSON object whose `categories` and `sources` values (defaulted
to empty lists when absent) are sized; in the object case it reports pass
with the derived counts.  A parsed non-object top level raises out of the
runner (see the counterexample). -/
theorem c3_latest_news_check (weekly : FileJson) (bc : Nat) (e : String)
    (kvs : List (String × JValue)) (nc ns : Nat)
    (hc : pyLen (dGetD kvs "categories" (.arr [])) = .ok nc)
    (hs : pyLen (dGetD kvs "sources" (.arr [])) = .ok ns) :
    firstResult (audit_data .missing weekly bc) =
      some { name := "data_latest_news", status := "warn",
             message := "latest-dutch-news.json not found" } ∧
    firstResult (audit_data (.invalid e) weekly bc) =
      some { name := "data_latest_news", status := "fail",
             message := "latest-dutch-news.json: Invalid JSON - " ++ e } ∧
    firstResult (audit_data (.parsed (.obj kvs)) weekly bc) =
      some { name := "data_latest_news", status := "pass",
             message := "latest-dutch-news.json: " ++
               pyStr (dGetD kvs "totalArticles" (.num 0)) ++
               " articles, " ++ toString nc ++ " categories",
             details := some [("total_articles", dGetD kvs "totalArticles" (.num 0)),
               ("categories", .num nc), ("sources", .num ns)] } := by
  refine ⟨rfl, rfl, ?_⟩
  simp [audit_data, newsCheck, firstResult, pyGet, hc, hs, Bind.bind, Except.bind]

/-- C3 witness: a concrete well-shaped artifact exercising the amended
theorem's pass branch. -/
theorem c3_witness :
    firstResult (audit_data (.parsed (.obj [("totalArticles", .num 5)])) .missing 0) =
      some { name := "data_latest_news", status := "pass",
             message := "latest-dutch-news.json: 5 articles, 0 categories",
             details := some [("total_articles", .num 5),
               ("categories", .num 0), ("sources", .num 0)] } :=
  (c3_latest_news_check .missing 0 "x" [("totalArticles", .num 5)] 0 0 rfl rfl).2.2

/-- C4: the weekly-articles check's status agrees with the spec's rule
(missing → warn, invalid → fail, parsed → pass iff day-count ≥ 3), with the
required instances (2 entries → warn, 3 entries → pass, missing → warn),
and it is the second result the data runner emits. -/
theorem c4_weekly_check :
    (∀ w : FileJson, (weeklyCheck w).status = specWeeklyStatus w) ∧
    (weeklyCheck (.parsed (.arr [.num 1, .num 2]))).status = "warn" ∧
    (weeklyCheck (.parsed (.arr [.num 1, .num 2, .num 3]))).status = "pass" ∧
    (weeklyCheck .missing).status = "warn" ∧
    (∀ (w : FileJson) (bc : Nat),
      nthResult (audit_data .missing w bc) 1 = some (weeklyCheck w)) := by
  refine ⟨?_, rfl, rfl, rfl, fun w bc => rfl⟩
  intro w
  cases w <;> rfl

/-- C5 counterexample: an existing but empty content directory does NOT
short-circuit to a single result — the runner still emits the four
per-content-type counts and the metadata count, five results in all. -/
theorem c5_counterexample :
    (audit_linkedin_content { dirExists := true, mdFiles := [], metadataFiles := [] }).length
      = 5 ∧
    ¬ (audit_linkedin_content
        { dirExists := true, mdFiles := [], metadataFiles := [] }).length = 1 :=
  ⟨rfl, by decide⟩

/-- C5 (amended): only an absent content directory short-circuits, with a
single warn result and no analysis; an existing-but-empty directory still
runs the per-type counts and the metadata count (five results, all info),
skipping only the latest-file quality evaluation. -/
theorem c5_short_circuit (cs : ContentDirState) (habs : cs.dirExists = false) :
    audit_linkedin_content cs =
      [{ name := "content_dir", status := "warn",
         message := "Content directory does not exist" }] ∧
    audit_linkedin_content { dirExists := true, mdFiles := [], metadataFiles := [] } =
      [contentTypeCheck [] "weeklyRoundup", contentTypeCheck [] "insightPost",
       contentTypeCheck [] "trendAnalysis", contentTypeCheck [] "longFormArticle",
       metadataCheck []] ∧
    (audit_linkedin_content
        { dirExists := true, mdFiles := [], metadataFiles := [] }).map
      (fun r => r.status) = ["info", "info", "info", "info", "info"] := by
  refine ⟨?_, rfl, rfl⟩
  simp [audit_linkedin_content, habs]

/-- C5 witness: the amended theorem applied to a concrete absent directory. -/
theorem c5_witness :
    audit_linkedin_content { dirExists := false, mdFiles := [], metadataFiles := [] } =
      [{ name := "content_dir", status := "warn",
         message := "Content directory does not exist" }] :=
  (c5_short_circuit { dirExists := false, mdFiles := [], metadataFiles := [] } rfl).1

/-- C6: when the content directory holds at least one markdown file, the
quality sub-check evaluates the file the code's `max` selects — an element
of the directory with the greatest modification time — and reports pass
exactly when word count > 100, a hashtag character is present, and one of
the three fixed keywords occurs case-insensitively; otherwise warn; in
particular a latest file under 100 words always yields warn. -/
theorem c6_content_quality (cs : ContentDirState) (f : MdFile) (fs' : List MdFile)
    (hdir : cs.dirExists = true) (hmd : cs.mdFiles = f :: fs') :
    pyMaxBy f fs' ∈ cs.mdFiles ∧
    (∀ g ∈ cs.mdFiles, g.mtime ≤ (pyMaxBy f fs').mtime) ∧
    (audit_linkedin_content cs).get? 4 = some (qualityCheck (pyMaxBy f fs')) ∧
    ((qualityCheck (pyMaxBy f fs')).status = "pass" ↔
      (pyWordCount (pyMaxBy f fs').content > 100 ∧
       strHasChar (pyMaxBy f fs').content '#' = true ∧
       (strHasSub (pyLower (pyMaxBy f fs').content) "recruitment" = true ∨
        strHasSub (pyLower (pyMaxBy f fs').content) "nederlandse" = true ∨
        strHasSub (pyLower (pyMaxBy f fs').content) "arbeidsmarkt" = true))) ∧
    ((qualityCheck (pyMaxBy f fs')).status = "pass" ∨
      (qualityCheck (pyMaxBy f fs')).status = "warn") ∧
    (pyWordCount (pyMaxBy f fs').content < 100 →
      (qualityCheck (pyMaxBy f fs')).status = "warn") := by
  have hmem : pyMaxBy f fs' ∈ cs.mdFiles := by
    rw [hmd]
    rcases pyMaxBy_mem f fs' with h | h
    · rw [h]; exact List.mem_cons_self f fs'
    · exact List.mem_cons_of_mem f h
  have hge : ∀ g ∈ cs.mdFiles, g.mtime ≤ (pyMaxBy f fs').mtime := by
    intro g hg
    rw [hmd] at hg
    rcases List.mem_cons.mp hg with rfl | hg
    · exact (pyMaxBy_ge g fs').1
    · exact (pyMaxBy_ge f fs').2 g hg
  have hpos : (audit_linkedin_content cs).get? 4 =
      some (qualityCheck (pyMaxBy f fs')) := by
    have : audit_linkedin_content cs =
        CONTENT_TYPES.map (contentTypeCheck (f :: fs')) ++
          [qualityCheck (pyMaxBy f fs')] ++ [metadataCheck cs.metadataFiles] := by
      simp [audit_linkedin_content, hdir, hmd]
    rw [this]
    rfl
  have hiff : (qualityCheck (pyMaxBy f fs')).status = "pass" ↔
      (pyWordCount (pyMaxBy f fs').content > 100 ∧
       strHasChar (pyMaxBy f fs').content '#' = true ∧
       (strHasSub (pyLower (pyMaxBy f fs').content) "recruitment" = true ∨
        strHasSub (pyLower (pyMaxBy f fs').content) "nederlandse" = true ∨
        strHasSub (pyLower (pyMaxBy f fs').content) "arbeidsmarkt" = true)) := by
    simp only [qualityCheck]
    split
    · next hcond =>
      simp only [Bool.and_eq_true, Bool.or_eq_true, decide_eq_true_eq] at hcond
      exact ⟨fun _ => by tauto, fun _ => rfl⟩
    · next hcond =>
      simp only [Bool.and_eq_true, Bool.or_eq_true, decide_eq_true_eq] at hcond
      constructor
      · intro h
        exact absurd h (by simp)
      · intro h
        exfalso
        apply hcond
        tauto
  refine ⟨hmem, hge, hpos, hiff, ?_, ?_⟩
  · simp only [qualityCheck]
    split <;> simp
  · intro hlt
    simp only [qualityCheck]
    split
    · next hcond =>
      simp only [Bool.and_eq_true, decide_eq_true_eq] at hcond
      have h1 : pyWordCount (pyMaxBy f fs').content > 100 := by tauto
      omega
    · rfl

/-- C6 witness: a concrete one-file directory whose latest file has fewer
than 100 words, exercising the warn branch. -/
theorem c6_witness :
    (audit_linkedin_content
        { dirExists := true,
          mdFiles := [{ name := "2024-insightPost.md", mtime := 10,
                        content := "Kort bericht #recruitment" }],
          metadataFiles := [] }).get? 4 =
      some (qualityCheck { name := "2024-insightPost.md", mtime := 10,
                           content := "Kort bericht #recruitment" }) ∧
    (qualityCheck { name := "2024-insightPost.md", mtime := 10,
                    content := "Kort bericht #recruitment" }).status = "warn" := by
  have h := c6_content_quality
    { dirExists := true,
      mdFiles := [{ name := "2024-insightPost.md", mtime := 10,
                    content := "Kort bericht #recruitment" }],
      metadataFiles := [] }
    { name := "2024-insightPost.md", mtime := 10,
      content := "Kort bericht #recruitment" } [] rfl rfl
  exact ⟨h.2.2.1, h.2.2.2.2.2 (by decide)⟩

/-- C7: the `.gitignore` sub-check (run only when the ignore file exists)
reports pass exactly when the file's text contains `.env` and fail
otherwise, and it is the only security sub-check that can ever produce a
fail — every other security result is pass or warn, for every input. -/
theorem c7_gitignore_only_fail :
    (∀ refind s r, r ∈ audit_security refind s → r.status = "fail" →
      r.name = "security_gitignore") ∧
    (∀ refind s g, s.gitignoreFile = some g →
      ({ name := "security_gitignore",
         status := if strHasSub g ".env" then "pass" else "fail",
         message := ".env in .gitignore: " ++ pyBool (strHasSub g ".env") } : AuditResult) ∈
        audit_security refind s) ∧
    (∀ refind s r, r ∈ audit_security refind s → r.name ≠ "security_gitignore" →
      r.status = "pass" ∨ r.status = "warn") := by
  refine ⟨?_, ?_, ?_⟩
  · intro refind s r hr hfail
    rcases audit_security_mem_cases refind s r hr with ⟨hst, _⟩ | ⟨hn, _⟩
    · rcases hst with h | h <;> rw [hfail] at h <;> simp at h
    · exact hn
  · intro refind s g hg
    unfold audit_security
    refine List.mem_append_left _ (List.mem_append_right _ ?_)
    rw [hg]
    exact List.mem_singleton.mpr rfl
  · intro refind s r hr hname
    rcases audit_security_mem_cases refind s r hr with ⟨hst, _⟩ | ⟨hn, _⟩
    · exact hst
    · exact absurd hn hname

/-- C7 witness: a concrete `.gitignore` lacking `.env` yields the fail
record, and it is a member of the runner's output. -/
theorem c7_witness :
    ({ name := "security_gitignore", status := "fail",
       message := ".env in .gitignore: False" } : AuditResult) ∈
      audit_security (fun _ _ => 0) secAllSome :=
  c7_gitignore_only_fail.2.1 (fun _ _ => 0) secAllSome "node_modules" rfl

/-- C8: serializing any report to its structured dictionary form and reading
that form back recovers the summary counts and the six category lengths
exactly (round-trip fidelity of counts). -/
theorem c8_roundtrip (r : AuditReport) :
    parseSummary (reportToDict r) = some r.summary ∧
    parseCategoryLens (reportToDict r) = some
      [r.file_audit.length, r.endpoint_audit.length, r.data_audit.length,
       r.content_audit.length, r.security_audit.length, r.code_audit.length] := by
  refine ⟨rfl, ?_⟩
  simp [parseCategoryLens, reportToDict, jGet, dGet, jArrLen]

/-- C9: for every aggregated result set, the recommendations end with the
fixed four best-practice strings (they are a suffix of the output), so the
recommendation list is never empty. -/
theorem c9_default_tail (rs : List AuditResult) :
    defaultRecommendations.IsSuffix (generate_recommendations rs) ∧
    generate_recommendations rs ≠ [] := by
  have hsuf : defaultRecommendations.IsSuffix (generate_recommendations rs) := ⟨_, rfl⟩
  refine ⟨hsuf, ?_⟩
  intro h
  have hle := hsuf.length_le
  rw [h] at hle
  simp [defaultRecommendations] at hle

/-- C10: when `.gitignore` is absent the security runner emits no result for
the ignore-file sub-check at all, and the runner's result count varies with
which audited files exist (2 results with nothing on disk, 5 with every
audited file present). -/
theorem c10_gitignore_absent :
    (∀ refind s, s.gitignoreFile = none →
      ∀ r ∈ audit_security refind s, r.name ≠ "security_gitignore") ∧
    (audit_security (fun _ _ => 0) secAllNone).length = 2 ∧
    (audit_security (fun _ _ => 0) secAllSome).length = 5 := by
  refine ⟨?_, rfl, rfl⟩
  intro refind s hnone r hr
  rcases audit_security_mem_cases refind s r hr with ⟨_, hn⟩ | ⟨_, g, hg, _⟩
  · exact hn
  · rw [hnone] at hg
    exact absurd hg (by simp)

/-- C10 witness: the no-gitignore clause applied to a concrete state and a
concrete member of its output. -/
theorem c10_witness :
    ({ name := "security_code_scan", status := "pass",
       message := "No obvious security issues in code" } : AuditResult).name ≠
      "security_gitignore" :=
  c10_gitignore_absent.1 (fun _ _ => 0) secAllNone rfl _
    (List.mem_cons_self _ _)

end Audits
